import Mathlib

/-!
Shallow embedding of the voting-ledger contract (src/src/contract.rs,
src/src/msg.rs, src/src/error.rs) of the dreamer-zq/election repository.

Identity tokens (HumanAddr) are opaque equality-comparable strings; they are
modelled as String.  Block heights and the window bounds are u64 in the source
and are only ever compared (never added in the source), so they are modelled
as Nat.  Vote counts are u32 in the source, produced by repeated increment of
a counter starting at 0 with one increment per stored vote record; they are
modelled as Nat.

Storage holds at most one State record under a fixed singleton key; it is
modelled as an Option State threaded explicitly through each operation.
A Singleton.update in the source loads the state, applies the closure, and
persists the result only when the closure succeeds; on any error the stored
value is untouched.
-/

namespace Election

/-- VoteInfo from state (fields as used in contract.rs lines 55-58): one
cast-vote record. -/
structure VoteInfo where
  voter : String
  candidate : String
deriving DecidableEq

/-- The singleton ledger State (fields as constructed in contract.rs
lines 19-24). -/
structure State where
  start : Nat
  «end» : Nat
  candidates : List String
  votes : List VoteInfo
deriving DecidableEq

/-- InitMsg from msg.rs. -/
structure InitMsg where
  start : Nat
  «end» : Nat
  candidates : List String
deriving DecidableEq

/-- ContractError from error.rs.  Std carries the host StdError rendered as a
message string. -/
inductive ContractError where
  | Std (msg : String)
  | Unauthorized
  | NotAllowance («begin» : Nat) («end» : Nat)
deriving DecidableEq

/-- One tally entry of the query response (msg.rs, struct Vote). -/
structure Vote where
  candidate : String
  count : Nat
deriving DecidableEq

/-- VoteResponse from msg.rs. -/
structure VoteResponse where
  start : Nat
  «end» : Nat
  votes : List Vote
deriving DecidableEq

/-- The State value constructed by init (contract.rs lines 19-24): window
bounds and roster from the message, empty vote log. -/
def init_state (msg : InitMsg) : State :=
  { start := msg.start
    «end» := msg.«end»
    candidates := msg.candidates
    votes := [] }

/-- Modelled from the spec: the storage layer (state.rs, providing
config/config_read over a cosmwasm Singleton) is not under src/.  Per the
spec, creation "initializes state with an empty vote log" and "fails if state
already exists for this deployment" (AlreadyInitialized, a host-enforced
precondition: the core need only guarantee it never silently overwrites
existing state).  So when state already exists, init leaves it untouched;
otherwise it stores the state built by init_state (contract.rs lines 19-25). -/
def init (storage : Option State) (msg : InitMsg) : Option State :=
  match storage with
  | some s => some s
  | none => some (init_state msg)

/-- try_vote (contract.rs lines 42-62): the update closure loads the current
state, rejects with NotAllowance (the OutOfWindow error, carrying the stored
bounds) whenever the block height is strictly below start or strictly above
end, and otherwise pushes the record made of the message sender and the chosen
candidate onto the votes log.  The result is the value the closure hands back
to Singleton.update: the new state on success, the error on failure.  A load
on empty storage fails with the host StdError (ContractError::Std). -/
def try_vote (storage : Option State) (height : Nat) (sender : String)
    (candidate : String) : Except ContractError State :=
  match storage with
  | none => Except.error (ContractError.Std "Singleton load: not found")
  | some state =>
      if height < state.start ∨ height > state.«end» then
        Except.error (ContractError.NotAllowance state.start state.«end»)
      else
        Except.ok { state with
          votes := state.votes ++ [{ voter := sender, candidate := candidate }] }

/-- Storage contents after a whole vote invocation: Singleton.update persists
the closure result only on success and leaves storage untouched on error. -/
def vote_step (storage : Option State) (height : Nat) (sender : String)
    (candidate : String) : Option State :=
  match try_vote storage height sender candidate with
  | Except.ok st => some st
  | Except.error _ => storage

/-- The HashMap entry(candidate).or_insert(0) followed by increment
(contract.rs lines 80-81), on an association list: bump the entry already
keyed by the candidate, or append a fresh entry with count 1. -/
def incr (m : List (String × Nat)) (c : String) : List (String × Nat) :=
  match m with
  | [] => [(c, 1)]
  | (k, n) :: rest => if k = c then (k, n + 1) :: rest else (k, n) :: incr rest c

/-- The first loop of query_vote_info (contract.rs lines 78-82): fold the
votes log into a candidate-to-count mapping.  Rust HashMap iteration order is
unspecified; this model fixes first-insertion order, which is sound for the
order-insensitive properties proved below (per-candidate counts, sums, and
multisets of entries do not depend on the entry order). -/
def vote_counts (votes : List VoteInfo) : List (String × Nat) :=
  votes.foldl (fun m v => incr m v.candidate) []

/-- query_vote_info (contract.rs lines 74-92): load the state (failing on
empty storage), aggregate the votes log, and emit the entries together with
the stored window bounds. -/
def query_vote_info (storage : Option State) : Except String VoteResponse :=
  match storage with
  | none => Except.error "Singleton load: not found"
  | some state =>
      Except.ok { start := state.start
                  «end» := state.«end»
                  votes := (vote_counts state.votes).map
                    (fun p => { candidate := p.1, count := p.2 }) }

/-- The query entry point takes the storage by shared reference
(contract.rs line 65: deps is an immutable borrow), so the storage after a
query invocation is returned alongside the response: it is the input
storage, unmodified. -/
def query_step (storage : Option State) :
    Option State × Except String VoteResponse :=
  (storage, query_vote_info storage)

/-- Number of vote records in a log naming a given candidate. -/
def candVotes (votes : List VoteInfo) (c : String) : Nat :=
  votes.countP (fun v => v.candidate == c)

/-- Count attributed to a candidate by a list of tally entries (0 when the
candidate appears in no entry). -/
def countIn : List Vote → String → Nat
  | [], _ => 0
  | v :: rest, c => if v.candidate = c then v.count else countIn rest c

/-- Count attributed to a candidate by a query response. -/
def respCount (r : VoteResponse) (c : String) : Nat :=
  countIn r.votes c

/-- First value stored under a key in an association list, 0 when absent. -/
def lookupCount : List (String × Nat) → String → Nat
  | [], _ => 0
  | (k, n) :: rest, c => if k = c then n else lookupCount rest c

/-- Sum of all counts held by an association list. -/
def sumCounts (m : List (String × Nat)) : Nat :=
  (m.map Prod.snd).sum

theorem lookupCount_incr_self (m : List (String × Nat)) (c : String) :
    lookupCount (incr m c) c = lookupCount m c + 1 := by
  induction m with
  | nil => simp [incr, lookupCount]
  | cons p rest ih =>
      obtain ⟨k, n⟩ := p
      by_cases h : k = c
      · simp [incr, lookupCount, h]
      · simp [incr, lookupCount, h, ih]

theorem lookupCount_incr_ne (m : List (String × Nat)) (c d : String)
    (h : d ≠ c) : lookupCount (incr m c) d = lookupCount m d := by
  induction m with
  | nil => simp [incr, lookupCount, h, Ne.symm h]
  | cons p rest ih =>
      obtain ⟨k, n⟩ := p
      by_cases hk : k = c
      · subst hk
        simp [incr, lookupCount, Ne.symm h]
      · by_cases hd : k = d <;>
          simp [incr, lookupCount, hk, hd, h, Ne.symm h, ih]

theorem lookupCount_foldl (votes : List VoteInfo) (m : List (String × Nat))
    (c : String) :
    lookupCount (votes.foldl (fun acc v => incr acc v.candidate) m) c
      = lookupCount m c + candVotes votes c := by
  induction votes generalizing m with
  | nil => simp [candVotes]
  | cons v rest ih =>
      simp only [List.foldl_cons]
      rw [ih]
      by_cases h : v.candidate = c
      · rw [h, lookupCount_incr_self]
        simp [candVotes, List.countP_cons, h]
        omega
      · rw [lookupCount_incr_ne _ _ _ (fun hc => h hc.symm)]
        simp [candVotes, List.countP_cons, h]

theorem lookupCount_vote_counts (votes : List VoteInfo) (c : String) :
    lookupCount (vote_counts votes) c = candVotes votes c := by
  have h := lookupCount_foldl votes [] c
  simpa [vote_counts, lookupCount] using h

theorem countIn_map (m : List (String × Nat)) (c : String) :
    countIn (m.map (fun p => { candidate := p.1, count := p.2 })) c
      = lookupCount m c := by
  induction m with
  | nil => rfl
  | cons p rest ih =>
      obtain ⟨k, n⟩ := p
      by_cases h : k = c <;> simp [countIn, lookupCount, h, ih]

theorem query_vote_info_some (st : State) :
    query_vote_info (some st)
      = Except.ok { start := st.start
                    «end» := st.«end»
                    votes := (vote_counts st.votes).map
                      (fun p => { candidate := p.1, count := p.2 }) } := rfl

theorem respCount_query (st : State) (r : VoteResponse)
    (h : query_vote_info (some st) = Except.ok r) (c : String) :
    respCount r c = candVotes st.votes c := by
  rw [query_vote_info_some] at h
  cases h
  simp [respCount, countIn_map, lookupCount_vote_counts]

theorem sumCounts_incr (m : List (String × Nat)) (c : String) :
    sumCounts (incr m c) = sumCounts m + 1 := by
  induction m with
  | nil => simp [incr, sumCounts]
  | cons p rest ih =>
      obtain ⟨k, n⟩ := p
      by_cases h : k = c
      · simp [incr, sumCounts, h]
        omega
      · simp only [incr, sumCounts, h, if_false, List.map_cons, List.sum_cons]
        have := ih
        simp [sumCounts] at this
        omega

theorem sumCounts_foldl (votes : List VoteInfo) (m : List (String × Nat)) :
    sumCounts (votes.foldl (fun acc v => incr acc v.candidate) m)
      = sumCounts m + votes.length := by
  induction votes generalizing m with
  | nil => simp
  | cons v rest ih =>
      simp only [List.foldl_cons, List.length_cons]
      rw [ih, sumCounts_incr]
      omega

theorem sumCounts_vote_counts (votes : List VoteInfo) :
    sumCounts (vote_counts votes) = votes.length := by
  have h := sumCounts_foldl votes []
  simpa [vote_counts, sumCounts] using h

theorem keys_incr (m : List (String × Nat)) (c : String) :
    (incr m c).map Prod.fst
      = if c ∈ m.map Prod.fst then m.map Prod.fst
        else m.map Prod.fst ++ [c] := by
  induction m with
  | nil => simp [incr]
  | cons p rest ih =>
      obtain ⟨k, n⟩ := p
      by_cases h : k = c
      · simp [incr, h]
      · by_cases hm : c ∈ rest.map Prod.fst <;>
          simp [incr, h, ih, hm, Ne.symm h]

theorem keys_nodup_incr (m : List (String × Nat)) (c : String)
    (h : (m.map Prod.fst).Nodup) : ((incr m c).map Prod.fst).Nodup := by
  rw [keys_incr]
  by_cases hm : c ∈ m.map Prod.fst
  · simpa [hm] using h
  · simp only [hm, if_false]
    simp [List.nodup_append, h, hm]

theorem keys_nodup_foldl (votes : List VoteInfo) (m : List (String × Nat))
    (h : (m.map Prod.fst).Nodup) :
    (((votes.foldl (fun acc v => incr acc v.candidate) m)).map Prod.fst).Nodup := by
  induction votes generalizing m with
  | nil => simpa using h
  | cons v rest ih =>
      simp only [List.foldl_cons]
      exact ih _ (keys_nodup_incr _ _ h)

theorem keys_nodup_vote_counts (votes : List VoteInfo) :
    ((vote_counts votes).map Prod.fst).Nodup :=
  keys_nodup_foldl votes [] (by simp)

theorem pos_incr (m : List (String × Nat)) (c : String)
    (h : ∀ p ∈ m, 0 < p.2) : ∀ p ∈ incr m c, 0 < p.2 := by
  induction m with
  | nil =>
      intro p hp
      simp [incr] at hp
      simp [hp]
  | cons q rest ih =>
      obtain ⟨k, n⟩ := q
      intro p hp
      by_cases hk : k = c
      · simp [incr, hk] at hp
        rcases hp with hp | hp
        · simp [hp]
        · exact h p (List.mem_cons_of_mem _ hp)
      · simp only [incr, hk, if_false, List.mem_cons] at hp
        rcases hp with hp | hp
        · exact hp ▸ h (k, n) (List.mem_cons_self _ _)
        · exact ih (fun q hq => h q (List.mem_cons_of_mem _ hq)) p hp

theorem pos_foldl (votes : List VoteInfo) (m : List (String × Nat))
    (h : ∀ p ∈ m, 0 < p.2) :
    ∀ p ∈ votes.foldl (fun acc v => incr acc v.candidate) m, 0 < p.2 := by
  induction votes generalizing m with
  | nil => simpa using h
  | cons v rest ih =>
      simp only [List.foldl_cons]
      exact ih _ (pos_incr _ _ h)

theorem pos_vote_counts (votes : List VoteInfo) :
    ∀ p ∈ vote_counts votes, 0 < p.2 :=
  pos_foldl votes [] (by simp)

theorem lookupCount_eq_of_mem (m : List (String × Nat)) (k : String) (n : Nat)
    (hnd : (m.map Prod.fst).Nodup) (h : (k, n) ∈ m) : lookupCount m k = n := by
  induction m with
  | nil => cases h
  | cons p rest ih =>
      obtain ⟨k0, n0⟩ := p
      simp only [List.map_cons, List.nodup_cons] at hnd
      rcases List.mem_cons.mp h with h0 | h0
      · obtain ⟨rfl, rfl⟩ := Prod.mk.injEq .. ▸ h0
        simp [lookupCount]
      · have hk : k0 ≠ k := by
          intro hkk
          exact hnd.1 (hkk ▸ (List.mem_map.mpr ⟨(k, n), h0, rfl⟩))
        simp [lookupCount, hk, ih hnd.2 h0]

theorem lookupCount_eq_zero_of_not_mem (m : List (String × Nat)) (k : String)
    (h : k ∉ m.map Prod.fst) : lookupCount m k = 0 := by
  induction m with
  | nil => rfl
  | cons p rest ih =>
      obtain ⟨k0, n0⟩ := p
      simp only [List.map_cons, List.mem_cons] at h
      push_neg at h
      simp [lookupCount, Ne.symm h.1, ih h.2]

theorem mem_of_mem_keys (m : List (String × Nat)) (k : String)
    (h : k ∈ m.map Prod.fst) : (k, lookupCount m k) ∈ m := by
  induction m with
  | nil => simp at h
  | cons p rest ih =>
      obtain ⟨k0, n0⟩ := p
      by_cases hk : k0 = k
      · subst hk
        simp [lookupCount]
      · simp only [List.map_cons, List.mem_cons] at h
        rcases h with h | h
        · exact absurd h.symm hk
        · exact List.mem_cons_of_mem _ (by simpa [lookupCount, hk] using ih h)

theorem mem_vote_counts_iff (votes : List VoteInfo) (k : String) (n : Nat) :
    (k, n) ∈ vote_counts votes ↔ candVotes votes k = n ∧ 0 < n := by
  constructor
  · intro h
    have he := lookupCount_eq_of_mem _ _ _ (keys_nodup_vote_counts votes) h
    have hp := pos_vote_counts votes _ h
    rw [lookupCount_vote_counts] at he
    exact ⟨he, he ▸ (he ▸ hp)⟩
  · rintro ⟨rfl, hpos⟩
    have hk : k ∈ (vote_counts votes).map Prod.fst := by
      by_contra hk
      have h0 := lookupCount_eq_zero_of_not_mem _ _ hk
      rw [lookupCount_vote_counts] at h0
      omega
    have hm := mem_of_mem_keys _ _ hk
    rwa [lookupCount_vote_counts] at hm

theorem try_vote_out_window (st : State) (now : Nat) (sender cand : String)
    (h : now < st.start ∨ now > st.«end») :
    try_vote (some st) now sender cand
      = Except.error (ContractError.NotAllowance st.start st.«end») := by
  simp [try_vote, h]

theorem try_vote_in_window (st : State) (now : Nat) (sender cand : String)
    (h1 : st.start ≤ now) (h2 : now ≤ st.«end») :
    try_vote (some st) now sender cand
      = Except.ok { st with
          votes := st.votes ++ [{ voter := sender, candidate := cand }] } := by
  have hcond : ¬(now < st.start ∨ now > st.«end») := by omega
  simp [try_vote, hcond]

theorem vote_counts_perm (l1 l2 : List VoteInfo) (h : l1.Perm l2) :
    (vote_counts l1).Perm (vote_counts l2) := by
  have nd1 : (vote_counts l1).Nodup :=
    List.Nodup.of_map Prod.fst (keys_nodup_vote_counts l1)
  have nd2 : (vote_counts l2).Nodup :=
    List.Nodup.of_map Prod.fst (keys_nodup_vote_counts l2)
  rw [List.perm_ext_iff_of_nodup nd1 nd2]
  rintro ⟨k, n⟩
  have hc : candVotes l1 k = candVotes l2 k := h.countP_eq _
  rw [mem_vote_counts_iff, mem_vote_counts_iff, hc]

/-- C1 counterexample: the claim asserts that for every initialized ledger
state, a vote at now = window_end succeeds.  For the reachable state created
with window_start = 1 and window_end = 0, a vote at now = 0 = window_end
fails with the OutOfWindow error instead (the code checks now < start
first). -/
theorem C1_counterexample :
    try_vote (some { start := 1, «end» := 0, candidates := [], votes := [] })
        0 "voter1" "candidates1"
      = Except.error (ContractError.NotAllowance 1 0) := by
  simp [try_vote]

/-- C1 (amended): for every initialized ledger state and every now with
now < window_start or now > window_end, vote fails with the OutOfWindow
error (NotAllowance) carrying the stored window_start and window_end and
the stored state is left completely unchanged; the upper boundary is
inclusive: whenever window_start <= window_end, a vote at now = window_end
succeeds, and a vote at now = window_end + 1 always fails with
OutOfWindow. -/
theorem C1_window_enforcement (st : State) (sender cand : String) :
    (∀ now, now < st.start ∨ now > st.«end» →
        try_vote (some st) now sender cand
          = Except.error (ContractError.NotAllowance st.start st.«end») ∧
        vote_step (some st) now sender cand = some st) ∧
    (st.start ≤ st.«end» →
        try_vote (some st) st.«end» sender cand
          = Except.ok { st with
              votes := st.votes ++ [{ voter := sender, candidate := cand }] }) ∧
    try_vote (some st) (st.«end» + 1) sender cand
      = Except.error (ContractError.NotAllowance st.start st.«end») := by
  refine ⟨fun now h => ?_, fun h => ?_, ?_⟩
  · have he := try_vote_out_window st now sender cand h
    exact ⟨he, by simp [vote_step, he]⟩
  · exact try_vote_in_window st st.«end» sender cand h le_rfl
  · exact try_vote_out_window st _ sender cand (Or.inr (Nat.lt_succ_self _))

/-- C1 witness: the amended claim evaluated on the window [10, 100]: a vote
at height 5 fails and leaves storage unchanged, a vote at height 100
succeeds, a vote at height 101 fails. -/
theorem C1_window_enforcement_witness :
    (try_vote (some { start := 10, «end» := 100, candidates := [], votes := [] })
        5 "voter1" "candidates1"
      = Except.error (ContractError.NotAllowance 10 100) ∧
     vote_step (some { start := 10, «end» := 100, candidates := [], votes := [] })
        5 "voter1" "candidates1"
      = some { start := 10, «end» := 100, candidates := [], votes := [] }) ∧
    try_vote (some { start := 10, «end» := 100, candidates := [], votes := [] })
        100 "voter1" "candidates1"
      = Except.ok { start := 10, «end» := 100, candidates := [],
                    votes := [{ voter := "voter1", candidate := "candidates1" }] } ∧
    try_vote (some { start := 10, «end» := 100, candidates := [], votes := [] })
        101 "voter1" "candidates1"
      = Except.error (ContractError.NotAllowance 10 100) := by
  refine ⟨(C1_window_enforcement
      { start := 10, «end» := 100, candidates := [], votes := [] }
      "voter1" "candidates1").1 5 (Or.inl (by decide)), ?_,
    (C1_window_enforcement
      { start := 10, «end» := 100, candidates := [], votes := [] }
      "voter1" "candidates1").2.2⟩
  have h := (C1_window_enforcement
      { start := 10, «end» := 100, candidates := [], votes := [] }
      "voter1" "candidates1").2.1 (by decide)
  simpa using h

/-- C2: for every initialized ledger state and every now inside the window,
vote succeeds, the new votes log is the old one with exactly one record
made of the caller and the candidate appended at the end, and a subsequent
tally shows that candidate's count increased by exactly 1. -/
theorem C2_vote_accept (st : State) (now : Nat) (sender cand : String)
    (h1 : st.start ≤ now) (h2 : now ≤ st.«end») :
    ∃ st', try_vote (some st) now sender cand = Except.ok st' ∧
      st'.votes = st.votes ++ [{ voter := sender, candidate := cand }] ∧
      ∃ r r', query_vote_info (some st) = Except.ok r ∧
        query_vote_info (some st') = Except.ok r' ∧
        respCount r' cand = respCount r cand + 1 := by
  refine ⟨_, try_vote_in_window st now sender cand h1 h2, rfl, _, _,
    query_vote_info_some st, query_vote_info_some _, ?_⟩
  rw [respCount_query st _ (query_vote_info_some st),
      respCount_query _ _ (query_vote_info_some _)]
  simp [candVotes, List.countP_append]

/-- C2 witness: a vote at height 15000 inside the window [10000, 20000]
appends the record and bumps the candidate's tally count by 1. -/
theorem C2_vote_accept_witness :
    ∃ st', try_vote
        (some { start := 10000, «end» := 20000, candidates := [], votes := [] })
        15000 "voter1" "candidates1" = Except.ok st' ∧
      st'.votes = [] ++ [{ voter := "voter1", candidate := "candidates1" }] ∧
      ∃ r r', query_vote_info
          (some { start := 10000, «end» := 20000, candidates := [], votes := [] })
            = Except.ok r ∧
        query_vote_info (some st') = Except.ok r' ∧
        respCount r' "candidates1" = respCount r "candidates1" + 1 :=
  C2_vote_accept { start := 10000, «end» := 20000, candidates := [], votes := [] }
    15000 "voter1" "candidates1" (by decide) (by decide)

/-- C3: for any ledger state, the tally succeeds; its count for each
candidate equals the number of vote records naming that candidate, the sum
of all counts in the output equals the length of the votes log, and the
output carries the stored window_start and window_end. -/
theorem C3_tally_correct (st : State) :
    ∃ r, query_vote_info (some st) = Except.ok r ∧
      (∀ c, respCount r c = candVotes st.votes c) ∧
      (r.votes.map Vote.count).sum = st.votes.length ∧
      r.start = st.start ∧ r.«end» = st.«end» := by
  refine ⟨_, query_vote_info_some st,
    fun c => respCount_query st _ (query_vote_info_some st) c, ?_, rfl, rfl⟩
  have h := sumCounts_vote_counts st.votes
  simpa [sumCounts, List.map_map, Function.comp] using h

/-- C4 (spec-modelled storage layer): if ledger state already exists,
create leaves the stored state — window bounds, roster, and vote log —
exactly as it was; it is never silently overwritten. -/
theorem C4_no_silent_overwrite (st : State) (msg : InitMsg) :
    init (some st) msg = some st := rfl

/-- C5: after create the stored votes log is empty and a tally query
returns exactly the stored window bounds with an empty votes list,
regardless of the candidate roster supplied. -/
theorem C5_init_then_tally (msg : InitMsg) :
    (init_state msg).votes = [] ∧
    init none msg = some (init_state msg) ∧
    query_vote_info (init none msg)
      = Except.ok { start := msg.start, «end» := msg.«end», votes := [] } :=
  ⟨rfl, rfl, rfl⟩

/-- C6 counterexample: the claim asserts that for any initialized state, two
same-voter same-candidate votes inside the window yield count 2 for that
candidate.  From the reachable state that already holds one record for
candidates1 (cast by voterA), two further votes by voter1 inside the window
[0, 10] yield count 3, not 2. -/
theorem C6_counterexample :
    query_vote_info (vote_step (vote_step
        (some { start := 0, «end» := 10, candidates := [],
                votes := [{ voter := "voterA", candidate := "candidates1" }] })
        5 "voter1" "candidates1") 5 "voter1" "candidates1")
      = Except.ok { start := 0, «end» := 10,
                    votes := [{ candidate := "candidates1", count := 3 }] } := by
  rfl

/-- C6 (amended): voting is not deduplicated by voter — for any initialized
state and any time inside the window, casting two votes from the same voter
for the same candidate appends two further identical vote records and
increases that candidate's tally count by exactly 2; in particular the
count is 2 when the prior state holds no vote record for that candidate. -/
theorem C6_no_dedup (st : State) (now : Nat) (voter cand : String)
    (h1 : st.start ≤ now) (h2 : now ≤ st.«end») :
    ∃ st2, vote_step (vote_step (some st) now voter cand) now voter cand
        = some st2 ∧
      st2.votes = st.votes ++ [{ voter := voter, candidate := cand },
                               { voter := voter, candidate := cand }] ∧
      ∃ r0 r2, query_vote_info (some st) = Except.ok r0 ∧
        query_vote_info (some st2) = Except.ok r2 ∧
        respCount r2 cand = respCount r0 cand + 2 ∧
        (candVotes st.votes cand = 0 → respCount r2 cand = 2) := by
  have hs1 := try_vote_in_window st now voter cand h1 h2
  have hs2 := try_vote_in_window
    { st with votes := st.votes ++ [{ voter := voter, candidate := cand }] }
    now voter cand h1 h2
  refine ⟨{ st with votes := (st.votes ++ [{ voter := voter, candidate := cand }])
      ++ [{ voter := voter, candidate := cand }] },
    by simp [vote_step, hs1, hs2], by simp, _, _,
    query_vote_info_some st, query_vote_info_some _, ?_, ?_⟩
  · rw [respCount_query st _ (query_vote_info_some st),
        respCount_query _ _ (query_vote_info_some _)]
    simp [candVotes, List.countP_append]
  · intro h0
    rw [respCount_query _ _ (query_vote_info_some _)]
    simp [candVotes, List.countP_append] at h0 ⊢
    exact h0

/-- C6 witness: the amended claim on a freshly created state with window
[0, 10]: two votes by voter1 at height 5 append two records and make the
candidate's count 0 + 2 = 2. -/
theorem C6_no_dedup_witness :
    ∃ st2, vote_step (vote_step
        (some { start := 0, «end» := 10, candidates := [], votes := [] })
        5 "voter1" "candidates1") 5 "voter1" "candidates1" = some st2 ∧
      st2.votes = [] ++ [{ voter := "voter1", candidate := "candidates1" },
                         { voter := "voter1", candidate := "candidates1" }] ∧
      ∃ r0 r2, query_vote_info
          (some { start := 0, «end» := 10, candidates := [], votes := [] })
            = Except.ok r0 ∧
        query_vote_info (some st2) = Except.ok r2 ∧
        respCount r2 "candidates1" = respCount r0 "candidates1" + 2 ∧
        (candVotes ([] : List VoteInfo) "candidates1" = 0 →
          respCount r2 "candidates1" = 2) :=
  C6_no_dedup { start := 0, «end» := 10, candidates := [], votes := [] }
    5 "voter1" "candidates1" (by decide) (by decide)

/-- C7: every entry of the tally output has count at least 1, and its
candidate is named by at least one stored vote record — a candidate with
zero vote records never appears, whatever the stored roster holds. -/
theorem C7_no_zero_counts (st : State) (r : VoteResponse)
    (h : query_vote_info (some st) = Except.ok r) :
    ∀ v ∈ r.votes, 1 ≤ v.count ∧ 0 < candVotes st.votes v.candidate := by
  rw [query_vote_info_some] at h
  cases h
  intro v hv
  simp only [List.mem_map] at hv
  obtain ⟨⟨k, n⟩, hp, rfl⟩ := hv
  obtain ⟨hcount, hpos⟩ := (mem_vote_counts_iff st.votes k n).mp hp
  exact ⟨hpos, by simpa [hcount] using hpos⟩

/-- C7 witness: on a state whose roster lists candidates2 but whose single
vote names candidates1, the sole tally entry has count 1 and its candidate
has a matching stored record. -/
theorem C7_no_zero_counts_witness :
    1 ≤ ({ candidate := "candidates1", count := 1 } : Vote).count ∧
    0 < candVotes [{ voter := "voter1", candidate := "candidates1" }]
        "candidates1" :=
  C7_no_zero_counts
    { start := 10, «end» := 100, candidates := ["candidates2"],
      votes := [{ voter := "voter1", candidate := "candidates1" }] }
    { start := 10, «end» := 100,
      votes := [{ candidate := "candidates1", count := 1 }] }
    rfl { candidate := "candidates1", count := 1 } (by simp)

/-- C8: the tally is order-insensitive — for two ledger states whose votes
logs are permutations of each other, both tallies succeed, agree on every
candidate's count, and produce equal multisets of tally entries. -/
theorem C8_tally_perm (s1 s2 : State) (h : s1.votes.Perm s2.votes) :
    ∃ r1 r2, query_vote_info (some s1) = Except.ok r1 ∧
      query_vote_info (some s2) = Except.ok r2 ∧
      (∀ c, respCount r1 c = respCount r2 c) ∧
      (r1.votes : Multiset Vote) = (r2.votes : Multiset Vote) := by
  refine ⟨_, _, query_vote_info_some s1, query_vote_info_some s2, ?_, ?_⟩
  · intro c
    rw [respCount_query s1 _ (query_vote_info_some s1),
        respCount_query s2 _ (query_vote_info_some s2)]
    exact h.countP_eq _
  · exact Multiset.coe_eq_coe.mpr ((vote_counts_perm _ _ h).map _)

/-- C8 witness: two states holding the same two vote records in opposite
orders have tallies with identical counts and equal entry multisets. -/
theorem C8_tally_perm_witness :
    ∃ r1 r2, query_vote_info
        (some { start := 0, «end» := 10, candidates := [],
                votes := [{ voter := "voter1", candidate := "candidates1" },
                          { voter := "voter2", candidate := "candidates2" }] })
          = Except.ok r1 ∧
      query_vote_info
        (some { start := 0, «end» := 10, candidates := [],
                votes := [{ voter := "voter2", candidate := "candidates2" },
                          { voter := "voter1", candidate := "candidates1" }] })
          = Except.ok r2 ∧
      (∀ c, respCount r1 c = respCount r2 c) ∧
      (r1.votes : Multiset Vote) = (r2.votes : Multiset Vote) :=
  C8_tally_perm
    { start := 0, «end» := 10, candidates := [],
      votes := [{ voter := "voter1", candidate := "candidates1" },
                { voter := "voter2", candidate := "candidates2" }] }
    { start := 0, «end» := 10, candidates := [],
      votes := [{ voter := "voter2", candidate := "candidates2" },
                { voter := "voter1", candidate := "candidates1" }] }
    (List.Perm.swap _ _ _)

/-- C9: a vote invocation — successful or failed — leaves window_start,
window_end, and the candidate roster equal to their prior values, and a
tally query passes the stored state through unmodified. -/
theorem C9_frame (st : State) (now : Nat) (sender cand : String) :
    (∃ st', vote_step (some st) now sender cand = some st' ∧
        st'.start = st.start ∧ st'.«end» = st.«end» ∧
        st'.candidates = st.candidates) ∧
    (query_step (some st)).1 = some st := by
  refine ⟨?_, rfl⟩
  by_cases h : now < st.start ∨ now > st.«end»
  · exact ⟨st, by simp [vote_step, try_vote_out_window st now sender cand h],
      rfl, rfl, rfl⟩
  · push_neg at h
    exact ⟨{ st with votes := st.votes ++ [{ voter := sender, candidate := cand }] },
      by simp [vote_step, try_vote_in_window st now sender cand h.1 h.2],
      rfl, rfl, rfl⟩

/-- C10: the accept/reject decision of a vote is independent of the caller:
for any storage, time, and candidate, a vote by caller a succeeds exactly
when a vote by caller b does, a failure produces the identical error for
both, and on success the two outcomes differ only in the voter field of the
single appended record. -/
theorem C10_caller_independent (storage : Option State) (now : Nat)
    (cand a b : String) :
    ((∃ sa, try_vote storage now a cand = Except.ok sa) ↔
      (∃ sb, try_vote storage now b cand = Except.ok sb)) ∧
    (∀ e, try_vote storage now a cand = Except.error e ↔
        try_vote storage now b cand = Except.error e) ∧
    (∀ st sa, storage = some st → try_vote storage now a cand = Except.ok sa →
      sa = { st with votes := st.votes ++ [{ voter := a, candidate := cand }] } ∧
      try_vote storage now b cand
        = Except.ok { st with
            votes := st.votes ++ [{ voter := b, candidate := cand }] }) := by
  cases storage with
  | none =>
      refine ⟨by simp [try_vote], fun e => by simp [try_vote],
        fun st sa hst => ?_⟩
      simp at hst
  | some st =>
      by_cases h : now < st.start ∨ now > st.«end»
      · have ha := try_vote_out_window st now a cand h
        have hb := try_vote_out_window st now b cand h
        refine ⟨by simp [ha, hb], fun e => by simp [ha, hb],
          fun st0 sa hst hok => ?_⟩
        rw [ha] at hok
        cases hok
      · push_neg at h
        have ha := try_vote_in_window st now a cand h.1 h.2
        have hb := try_vote_in_window st now b cand h.1 h.2
        refine ⟨by simp [ha, hb], fun e => by simp [ha, hb],
          fun st0 sa hst hok => ?_⟩
        injection hst with hst'
        subst hst'
        rw [ha] at hok
        injection hok with hok'
        exact ⟨hok'.symm, hb⟩

/-- C10 witness: on the window [10, 100] at height 50, the success outcome
for caller alice forces the corresponding success outcome for caller bob,
differing only in the appended record's voter. -/
theorem C10_caller_independent_witness :
    ({ start := 10, «end» := 100, candidates := [],
       votes := [{ voter := "alice", candidate := "candidates1" }] } : State)
      = { start := 10, «end» := 100, candidates := [],
          votes := [{ voter := "alice", candidate := "candidates1" }] } ∧
    try_vote (some { start := 10, «end» := 100, candidates := [], votes := [] })
        50 "bob" "candidates1"
      = Except.ok { start := 10, «end» := 100, candidates := [],
                    votes := [{ voter := "bob", candidate := "candidates1" }] } :=
  (C10_caller_independent
      (some { start := 10, «end» := 100, candidates := [], votes := [] })
      50 "candidates1" "alice" "bob").2.2
    { start := 10, «end» := 100, candidates := [], votes := [] }
    { start := 10, «end» := 100, candidates := [],
      votes := [{ voter := "alice", candidate := "candidates1" }] }
    rfl rfl

end Election
